import Mathlib

/-!
Verification of the VoiceLens dashboard query-template and result-shaping
layer (`pages/pages.py`).

The five insight pages build analytical SQL strings and post-process the
tabular results.  We embed the semantics of each query and of each page
controller as executable Lean functions over an explicit list of review
rows.

Modelling conventions:
* Strings are `List Char`; `LOWER`, `TRIM`, `REPLACE` are embedded as
  character-list functions.
* Dates are abstract integers (a `DATE` value is its day number); the
  literal cutoff dates of the source (`2021-01-01`, `2024-09-01`) become
  integer parameters.
* SQL `FLOAT64` division results are embedded as exact fractions
  `Frac = Int × Nat` (numerator, denominator as produced by
  `SAFE_DIVIDE`), with `fracVal` interpreting a fraction as a rational.
  `SAFE_DIVIDE` returns `none` (SQL `NULL`) on a zero denominator.
* `extracted_entities` is modelled at the decoded level as the list of
  `(text, label)` pairs that the source's `REGEXP_EXTRACT_ALL` pattern
  recovers from the serialized `('text', 'LABEL')` form.
-/

/-! ### Characters and strings -/

abbrev Str := List Char

/-- SQL `LOWER`, restricted to the ASCII case mapping used by the data. -/
def lowerStr (s : Str) : Str := s.map Char.toLower

/-- SQL `TRIM`: drop leading and trailing whitespace. -/
def trimStr (s : Str) : Str :=
  (((s.dropWhile Char.isWhitespace).reverse).dropWhile Char.isWhitespace).reverse

/-- Whether `pat` occurs at the start of `s`. -/
def isPre : Str → Str → Bool
  | [], _ => true
  | _ :: _, [] => false
  | p :: ps, c :: cs => p == c && isPre ps cs

/-- Whether `pat` occurs somewhere inside `s` (SQL `LIKE` with
wildcards on both sides). -/
def hasSub (pat : Str) : Str → Bool
  | [] => pat == []
  | c :: cs => isPre pat (c :: cs) || hasSub pat cs

/-- The literal topic tag `"Topic: "` that the queries strip. -/
def topicTag : Str := ['T', 'o', 'p', 'i', 'c', ':', ' ']

/-- SQL `REPLACE(predicted_topic, 'Topic: ', '')`: remove every
(left-to-right, non-overlapping) occurrence of `"Topic: "`. -/
def cleanTopic : Str → Str
  | 'T' :: 'o' :: 'p' :: 'i' :: 'c' :: ':' :: ' ' :: rest => cleanTopic rest
  | c :: cs => c :: cleanTopic cs
  | [] => []

/-- Whether `"Topic: "` occurs anywhere in the string. -/
def hasTopicTag : Str → Bool
  | [] => false
  | c :: cs => isPre topicTag (c :: cs) || hasTopicTag cs

/-! ### Guarded division -/

/-- An exact SQL float: numerator and (positive, when produced by
`safeDivide`) denominator. -/
abbrev Frac := Int × Nat

/-- The rational value denoted by a fraction. -/
def fracVal (p : Frac) : ℚ := (p.1 : ℚ) / (p.2 : ℚ)

/-- The rational value of a nullable rate. -/
def rateVal : Option Frac → Option ℚ := Option.map fracVal

/-- BigQuery `SAFE_DIVIDE`: `NULL` when the denominator is zero,
otherwise the exact quotient. -/
def safeDivide (n : Int) (d : Nat) : Option Frac :=
  if d = 0 then none else some (n, d)

/-- Descending comparison of fractions by value (zero denominators sort
below everything, mirroring how `none` is handled separately). -/
def fracGeB (p q : Frac) : Bool :=
  if q.2 = 0 then true
  else if p.2 = 0 then false
  else decide (q.1 * (p.2 : Int) ≤ p.1 * (q.2 : Int))

/-- Descending comparison of nullable rates: BigQuery `ORDER BY x DESC`
places `NULL` last. -/
def optGeB : Option Frac → Option Frac → Bool
  | _, none => true
  | none, some _ => false
  | some p, some q => fracGeB p q

/-- Ascending comparison of nullable rates with nulls last (pandas
`sort_values(ascending=True)` keeps `NaN` at the end). -/
def optLeB : Option Frac → Option Frac → Bool
  | _, none => true
  | none, some _ => false
  | some p, some q => fracGeB q p

/-- The value a nullable rate is ordered by: `NULL` below every number. -/
def rateRank : Option Frac → WithBot ℚ
  | none => ⊥
  | some p => (fracVal p : ℚ)

/-- Well-formedness of a rate: a present fraction has a positive
denominator (every rate `safeDivide` produces satisfies this). -/
def RateWF (o : Option Frac) : Prop := ∀ p, o = some p → 0 < p.2

/-! ### The review table -/

/-- One row of the master insight table, as consumed by the queries. -/
structure ReviewRow where
  review_id : Nat
  review_date : Int
  predicted_sentiment : Option Str
  predicted_topic : Str
  location : Option Str
  extracted_entities : List (Str × Str)
deriving DecidableEq, Repr

/-- The test `LOWER(predicted_sentiment) = 'negative'` (SQL `NULL`
compares to nothing, so a missing sentiment never matches). -/
def isNegLower (s : Option Str) : Bool :=
  match s with
  | some t => lowerStr t == ['n', 'e', 'g', 'a', 't', 'i', 'v', 'e']
  | none => false

/-- SQL `GROUP BY key`: the distinct keys, each with its rows. -/
def groupBy {α K : Type} [DecidableEq K] (key : α → K) (rows : List α) :
    List (K × List α) :=
  ((rows.map key).dedup).map (fun k => (k, rows.filter (fun r => decide (key r = k))))

/-! ### Root-cause page: bounds query and time-series query -/

/-- Result row of `ts_query`. -/
structure TsRow where
  date : Int
  volume : Nat
  negative_rate : Option Frac
deriving DecidableEq, Repr

/-- Result row of `topic_query`. -/
structure TopicRow where
  simple_topic : Str
  negative_mentions : Nat
deriving DecidableEq, Repr

/-- The preliminary bounds query: `MIN`/`MAX` of review dates at or after
the fixed epoch (`2021-01-01` in the source, the parameter `epoch` here).
Returns `none` when no row qualifies (SQL would return one all-`NULL`
row). -/
def bounds_query (epoch : Int) (db : List ReviewRow) : Option (Int × Int) :=
  let ds := (db.filter (fun r => decide (epoch ≤ r.review_date))).map (·.review_date)
  match ds with
  | [] => none
  | d :: rest => some (rest.foldl min d, rest.foldl max d)

/-- The per-date negative rate:
`SAFE_DIVIDE(COUNTIF(LOWER(predicted_sentiment) = 'negative'), COUNT(review_id))`. -/
def tsRate (g : List ReviewRow) : Option Frac :=
  safeDivide (g.countP (fun r => isNegLower r.predicted_sentiment)) g.length

/-- Ascending date order (`ORDER BY 1`). -/
def dateLe (a b : TsRow) : Prop := a.date ≤ b.date

instance : DecidableRel dateLe := fun a b => Int.decLe a.date b.date

/-- The root-cause time-series query: volume and negative rate per date,
restricted to `DATE(review_date) BETWEEN start_date AND end_date`. -/
def ts_query (start_date end_date : Int) (db : List ReviewRow) : List TsRow :=
  let rows := db.filter (fun r =>
    decide (start_date ≤ r.review_date ∧ r.review_date ≤ end_date))
  let out := (groupBy (·.review_date) rows).map (fun g =>
    ⟨g.1, g.2.length, tsRate g.2⟩)
  List.insertionSort dateLe out

/-- Descending mention count (`ORDER BY 2 DESC`). -/
def topicGe (a b : TopicRow) : Prop := b.negative_mentions ≤ a.negative_mentions

instance : DecidableRel topicGe := fun a b => Nat.decLe b.negative_mentions a.negative_mentions

/-- The root-cause topic query: negative reviews in range, grouped by the
cleaned topic label, top 4 by mention count. -/
def topic_query (start_date end_date : Int) (db : List ReviewRow) : List TopicRow :=
  let rows := db.filter (fun r =>
    isNegLower r.predicted_sentiment &&
      decide (start_date ≤ r.review_date ∧ r.review_date ≤ end_date))
  let out := (groupBy (fun r => cleanTopic r.predicted_topic) rows).map (fun g =>
    ⟨g.1, g.2.length⟩)
  (List.insertionSort topicGe out).take 4

/-! ### Geo-hotspots query -/

/-- Result row of `geo_query`. -/
structure GeoRow where
  location : Option Str
  total_reviews : Nat
  negative_pct : Option Frac
deriving DecidableEq, Repr

/-- The `WHERE` clause of the geo query: `location IS NOT NULL AND
LENGTH(location) = 2` (the alphabetic regex filter is commented out in
the source). -/
def geoKeep (r : ReviewRow) : Bool :=
  match r.location with
  | some l => l.length == 2
  | none => false

/-- Denominator of the geo rate: `COUNTIF(predicted_sentiment IS NOT NULL)`. -/
def geoDenom (g : List ReviewRow) : Nat :=
  g.countP (fun r => r.predicted_sentiment.isSome)

/-- The geo rate `SAFE_DIVIDE(COUNTIF(LOWER(predicted_sentiment) = 'negative'),
COUNTIF(predicted_sentiment IS NOT NULL))`. -/
def geoPct (g : List ReviewRow) : Option Frac :=
  safeDivide (g.countP (fun r => isNegLower r.predicted_sentiment)) (geoDenom g)

/-- Descending rate order (`ORDER BY negative_pct DESC`). -/
def geoGe (a b : GeoRow) : Prop := optGeB a.negative_pct b.negative_pct = true

instance : DecidableRel geoGe := fun a b =>
  instDecidableEqBool (optGeB a.negative_pct b.negative_pct) true

/-- The geo-hotspots query. -/
def geo_query (db : List ReviewRow) : List GeoRow :=
  let rows := db.filter geoKeep
  let out := (groupBy (·.location) rows).map (fun g =>
    ⟨g.1, g.2.length, geoPct g.2⟩)
  List.insertionSort geoGe (out.filter (fun row => decide (0 < row.total_reviews)))

/-! ### Product-features query -/

/-- Result row of `feature_query`. -/
structure FeatRow where
  feature : Str
  mentions : Nat
  positive_pct : Option Frac
deriving DecidableEq, Repr

/-- One `UNNEST`ed mention: the extracted entity text together with the
sentiment of its source review. -/
abbrev Mention := Str × Option Str

/-- The `REGEXP_EXTRACT_ALL` + `UNNEST` step of the features query: one
mention per entity pair whose label is `PRODUCT` or `METRIC`. -/
def featMentions (db : List ReviewRow) : List Mention :=
  db.flatMap (fun r =>
    ((r.extracted_entities.filter (fun p =>
        p.2 == ['P','R','O','D','U','C','T'] || p.2 == ['M','E','T','R','I','C'])).map
      (fun p => (p.1, r.predicted_sentiment))))

/-- The grouping key `TRIM(LOWER(matches))`. -/
def featKey (m : Mention) : Str := trimStr (lowerStr m.1)

/-- The features rate `SAFE_DIVIDE(COUNTIF(predicted_sentiment = 'positive'),
COUNT(*))`: note the case-sensitive comparison and the all-rows
denominator. -/
def featPct (g : List Mention) : Option Frac :=
  safeDivide (g.countP (fun m => m.2 == some ['p','o','s','i','t','i','v','e'])) g.length

/-- Descending mention count (`ORDER BY mentions DESC`). -/
def featGe (a b : FeatRow) : Prop := b.mentions ≤ a.mentions

instance : DecidableRel featGe := fun a b => Nat.decLe b.mentions a.mentions

/-- The product-features query: mentions grouped by normalized feature
text, `HAVING mentions > 0`, top 20 by mention count. -/
def feature_query (db : List ReviewRow) : List FeatRow :=
  let ms := featMentions db
  let out := (groupBy featKey ms).map (fun g => ⟨g.1, g.2.length, featPct g.2⟩)
  (List.insertionSort featGe (out.filter (fun row => decide (0 < row.mentions)))).take 20

/-! ### Emerging-trends query -/

/-- Result row of the trends `SELECT` (the raw join key is kept so that a
topic's row can be identified before the `REPLACE`). -/
structure TrendRow where
  topic : Str
  simple_topic : Str
  vol_recent : Nat
  vol_past : Nat
  growth_rate : Option Frac
deriving DecidableEq, Repr

/-- Rows of the recent partition: `CAST(review_date AS DATE) >= cutoff`
(the source hard-codes the cutoff `2024-09-01`). -/
def recentRows (cutoff : Int) (db : List ReviewRow) : List ReviewRow :=
  db.filter (fun r => decide (cutoff ≤ r.review_date))

/-- Rows of the past partition: `CAST(review_date AS DATE) < cutoff`. -/
def pastRows (cutoff : Int) (db : List ReviewRow) : List ReviewRow :=
  db.filter (fun r => decide (r.review_date < cutoff))

/-- The CTE `recent_stats`: topic and volume over the recent partition. -/
def recent_stats (cutoff : Int) (db : List ReviewRow) : List (Str × Nat) :=
  (groupBy (·.predicted_topic) (recentRows cutoff db)).map (fun g => (g.1, g.2.length))

/-- The CTE `past_stats`: topic and volume over the past partition. -/
def past_stats (cutoff : Int) (db : List ReviewRow) : List (Str × Nat) :=
  (groupBy (·.predicted_topic) (pastRows cutoff db)).map (fun g => (g.1, g.2.length))

/-- The growth rate
`SAFE_DIVIDE((r.vol_recent - COALESCE(p.vol_past, 0)), COALESCE(p.vol_past, 1))`
where `p` is the (possibly missing) past volume of the topic.  Note the
numerator defaults the missing past volume to `0`, the denominator to `1`. -/
def trendRate (vr : Nat) (p : Option Nat) : Option Frac :=
  safeDivide ((vr : Int) - (p.getD 0 : Nat)) (p.getD 1)

/-- The `SELECT` of the trends query: `recent_stats LEFT JOIN past_stats`
on the raw topic. -/
def trendJoin (cutoff : Int) (db : List ReviewRow) : List TrendRow :=
  (recent_stats cutoff db).map (fun tv =>
    let p := ((past_stats cutoff db).find? (fun q => decide (q.1 = tv.1))).map (·.2)
    ⟨tv.1, cleanTopic tv.1, tv.2, p.getD 1, trendRate tv.2 p⟩)

/-- Descending growth rate (`ORDER BY growth_rate DESC`). -/
def growthGe (a b : TrendRow) : Prop := optGeB a.growth_rate b.growth_rate = true

instance : DecidableRel growthGe := fun a b =>
  instDecidableEqBool (optGeB a.growth_rate b.growth_rate) true

/-- The emerging-trends query: joined stats with `WHERE r.vol_recent > 0`,
top 10 by growth rate. -/
def trend_query (cutoff : Int) (db : List ReviewRow) : List TrendRow :=
  (List.insertionSort growthGe
    ((trendJoin cutoff db).filter (fun r => decide (0 < r.vol_recent)))).take 10

/-- Volume of topic `t` in the recent partition (the group size behind
its `recent_stats` entry). -/
def topicRecentVol (cutoff : Int) (db : List ReviewRow) (t : Str) : Nat :=
  ((recentRows cutoff db).filter (fun r => decide (r.predicted_topic = t))).length

/-- Volume of topic `t` in the past partition. -/
def topicPastVol (cutoff : Int) (db : List ReviewRow) (t : Str) : Nat :=
  ((pastRows cutoff db).filter (fun r => decide (r.predicted_topic = t))).length

/-! ### Competitive-intelligence query -/

/-- Result row of `comp_query`. -/
structure CompRow where
  competitor : Str
  mentions : Nat
  negative_association_pct : Option Frac
deriving DecidableEq, Repr

/-- Mentions for the competition query: entity pairs labelled `ORG`,
`TEAM` or `PRODUCT`. -/
def compMentions (db : List ReviewRow) : List Mention :=
  db.flatMap (fun r =>
    ((r.extracted_entities.filter (fun p =>
        p.2 == ['O','R','G'] || p.2 == ['T','E','A','M'] ||
          p.2 == ['P','R','O','D','U','C','T'])).map
      (fun p => (p.1, r.predicted_sentiment))))

/-- The `WHERE` clause on a mention: `LOWER(matches) NOT LIKE '%voicelens%'`
and `LOWER(matches) NOT IN ('hotel marrakesh', 'product a')`. -/
def compKeep (m : Mention) : Bool :=
  let lw := lowerStr m.1
  !(hasSub ['v','o','i','c','e','l','e','n','s'] lw) &&
    !(lw == ['h','o','t','e','l',' ','m','a','r','r','a','k','e','s','h']) &&
    !(lw == ['p','r','o','d','u','c','t',' ','a'])

/-- The competition rate `SAFE_DIVIDE(COUNTIF(predicted_sentiment = 'negative'),
COUNT(*))` (case-sensitive, like the features query). -/
def compPct (g : List Mention) : Option Frac :=
  safeDivide (g.countP (fun m => m.2 == some ['n','e','g','a','t','i','v','e'])) g.length

/-- Descending mention count (`ORDER BY mentions DESC`). -/
def compGe (a b : CompRow) : Prop := b.mentions ≤ a.mentions

instance : DecidableRel compGe := fun a b => Nat.decLe b.mentions a.mentions

/-- The competitive-intelligence query: kept mentions grouped by
`TRIM(matches)`, `HAVING mentions > 0`, top 10 by mention count. -/
def comp_query (db : List ReviewRow) : List CompRow :=
  let ms := (compMentions db).filter compKeep
  let out := (groupBy (fun m => trimStr m.1) ms).map (fun g =>
    ⟨g.1, g.2.length, compPct g.2⟩)
  (List.insertionSort compGe (out.filter (fun row => decide (0 < row.mentions)))).take 10

/-! ### Page controllers -/

/-- Everything `page_root_cause` does in one render that the spec talks
about: which queries were issued, whether validation failed, the fetched
tables, the headline and the number of charts drawn. -/
structure RootCauseRender where
  bounds_executed : Bool
  validation_error : Bool
  ts_executed : Bool
  topics_executed : Bool
  ts_rows : List TsRow
  topic_rows : List TopicRow
  top_issue : Option Str
  charts_shown : Nat
deriving DecidableEq, Repr

/-- The root-cause page controller.  The bounds query is issued first (it
seeds the date pickers), then the chosen dates are validated; on
`start_date > end_date` the render stops with an error message before the
time-series and topic queries. -/
def page_root_cause (epoch : Int) (db : List ReviewRow)
    (start_date end_date : Int) : RootCauseRender :=
  let _bounds := bounds_query epoch db
  if end_date < start_date then
    ⟨true, true, false, false, [], [], none, 0⟩
  else
    let ts := ts_query start_date end_date db
    if ts.isEmpty then
      ⟨true, false, true, false, ts, [], none, 0⟩
    else
      let tp := topic_query start_date end_date db
      match tp with
      | [] => ⟨true, false, true, true, ts, [], none, 1⟩
      | t :: rest => ⟨true, false, true, true, ts, t :: rest, some t.simple_topic, 2⟩

/-- The geo page render: the fetched table, the worst-location headline
(`geo_df.iloc[0]["location"]`, only read when the table is non-empty) and
whether the no-data warning was shown instead. -/
structure GeoRender where
  rows : List GeoRow
  worst_loc : Option (Option Str)
  no_data_warning : Bool
deriving DecidableEq, Repr

/-- The geo-hotspots page controller. -/
def page_geo_hotspots (db : List ReviewRow) : GeoRender :=
  match geo_query db with
  | [] => ⟨[], none, true⟩
  | r :: rest => ⟨r :: rest, some r.location, false⟩

/-- The trends page render. -/
structure TrendRender where
  rows : List TrendRow
  top_trend : Option Str
  no_data_warning : Bool
deriving DecidableEq, Repr

/-- The emerging-trends page controller: headline
`df.iloc[0]["simple_topic"]` only when the table is non-empty. -/
def page_emerging_trends (cutoff : Int) (db : List ReviewRow) : TrendRender :=
  match trend_query cutoff db with
  | [] => ⟨[], none, true⟩
  | r :: rest => ⟨r :: rest, some r.simple_topic, false⟩

/-- Pandas `df.sort_values(by="positive_pct", ascending=False)`. -/
def featSorted (db : List ReviewRow) : List FeatRow :=
  List.insertionSort (fun a b => optGeB a.positive_pct b.positive_pct = true)
    (feature_query db)

instance instDecFeatValGe :
    DecidableRel (fun (a b : FeatRow) => optGeB a.positive_pct b.positive_pct = true) :=
  fun a b => instDecidableEqBool (optGeB a.positive_pct b.positive_pct) true

instance instDecFeatValLe :
    DecidableRel (fun (a b : FeatRow) => optLeB a.positive_pct b.positive_pct = true) :=
  fun a b => instDecidableEqBool (optLeB a.positive_pct b.positive_pct) true

/-- The slice `df_sorted.head(3)`. -/
def featTop3 (db : List ReviewRow) : List FeatRow := (featSorted db).take 3

/-- The slice `df_sorted.tail(3)`: the last three rows of the
descending-sorted table. -/
def featTailSlice (db : List ReviewRow) : List FeatRow :=
  (featSorted db).drop ((featSorted db).length - 3)

/-- The displayed bottom-3 slice
`df_sorted.tail(3).sort_values(by="positive_pct", ascending=True)`. -/
def featBottom3 (db : List ReviewRow) : List FeatRow :=
  List.insertionSort (fun a b => optLeB a.positive_pct b.positive_pct = true)
    (featTailSlice db)

/-- The product-features page render.  When the fetched table is empty
the page draws nothing at all (there is no `else` branch in the source);
otherwise it draws the chart and the two metric columns. -/
structure FeatRender where
  rows : List FeatRow
  displayed : Bool
  top_3 : List FeatRow
  bottom_3 : List FeatRow
deriving DecidableEq, Repr

/-- The product-features page controller. -/
def page_product_features (db : List ReviewRow) : FeatRender :=
  let df := feature_query db
  if df.isEmpty then ⟨df, false, [], []⟩
  else ⟨df, true, featTop3 db, featBottom3 db⟩

/-- The competitive-intelligence page render: the fetched table, whether
the no-data warning was shown, and how many charts were drawn (the live
code draws the horizontal bar chart and the labelled scatter plot).
This page computes no headline. -/
structure CompRender where
  rows : List CompRow
  no_data_warning : Bool
  charts_shown : Nat
deriving DecidableEq, Repr

/-- The competitive-intelligence page controller: on an empty result it
shows the no-competitors warning and draws nothing; otherwise it draws
the two charts over the fetched rows. -/
def page_competition (db : List ReviewRow) : CompRender :=
  match comp_query db with
  | [] => ⟨[], true, 0⟩
  | r :: rest => ⟨r :: rest, false, 2⟩

/-! ### Concrete databases used in the worked examples -/

/-- The lowercase sentiment literal `positive`. -/
def posS : Str := ['p','o','s','i','t','i','v','e']

/-- The lowercase sentiment literal `negative`. -/
def negS : Str := ['n','e','g','a','t','i','v','e']

/-- The capitalized sentiment `Positive` (not matched by the
case-sensitive features numerator). -/
def capPosS : Str := ['P','o','s','i','t','i','v','e']

/-- The capitalized sentiment `Negative` (matched by the lower-casing
queries, not by the case-sensitive ones). -/
def capNegS : Str := ['N','e','g','a','t','i','v','e']

/-- The location code `US`. -/
def usS : Str := ['U','S']

/-- The location code `FR`. -/
def frS : Str := ['F','R']

/-- The entity label `PRODUCT`. -/
def prodL : Str := ['P','R','O','D','U','C','T']

/-- The entity label `METRIC`. -/
def metricL : Str := ['M','E','T','R','I','C']

/-- The feature text `battery`. -/
def batteryS : Str := ['b','a','t','t','e','r','y']

/-- The database of the RootCauseSeries end-to-end example: reviews
(2024-01-01, negative), (2024-01-01, positive), (2024-01-02, negative),
with the two dates abstracted as 1 and 2. -/
def exampleTsDb : List ReviewRow :=
  [⟨0, 1, some negS, [], none, []⟩,
   ⟨1, 1, some posS, [], none, []⟩,
   ⟨2, 2, some negS, [], none, []⟩]

/-- The database of the GeoHotspots end-to-end example: locations
US, US, FR with sentiments negative, positive, negative. -/
def exampleGeoDb : List ReviewRow :=
  [⟨0, 1, some negS, [], some usS, []⟩,
   ⟨1, 1, some posS, [], some usS, []⟩,
   ⟨2, 1, some negS, [], some frS, []⟩]

/-- A database whose only review carries the 2-character non-alphabetic
location code `12` and a positive sentiment. -/
def badLocDb : List ReviewRow := [⟨0, 1, some posS, [], some ['1','2'], []⟩]

/-- A database with one review of topic `A` in the recent partition
(date 10) and nothing in the past. -/
def newTopicDb : List ReviewRow := [⟨0, 10, none, ['A'], none, []⟩]

/-- A review with a null sentiment: alone in a group, the geo rate
denominator is zero. -/
def nullSentRow : ReviewRow := ⟨0, 0, none, [], some usS, []⟩

/-- A US group with one negative and one null sentiment: two total
reviews but only one non-null sentiment in the rate denominator. -/
def nullMixGeoDb : List ReviewRow :=
  [⟨0, 1, some negS, [], some usS, []⟩,
   ⟨1, 1, none, [], some usS, []⟩]

/-- A database producing six distinct single-mention features. -/
def sixFeatDb : List ReviewRow :=
  [⟨0, 1, some posS, [], none, [(['a','l','p','h','a'], prodL)]⟩,
   ⟨1, 1, some posS, [], none, [(['b','r','a','v','o'], prodL)]⟩,
   ⟨2, 1, some negS, [], none, [(['c','a','r','g','o'], metricL)]⟩,
   ⟨3, 1, some negS, [], none, [(['d','e','l','t','a'], prodL)]⟩,
   ⟨4, 1, none, [], none, [(['e','c','h','o','s'], metricL)]⟩,
   ⟨5, 1, some posS, [], none, [(['f','o','r','c','e'], prodL)]⟩]

/-- Three mentions of `battery`: exactly-lowercase positive, capitalized
`Positive`, and a null sentiment. -/
def mixedCaseFeatDb : List ReviewRow :=
  [⟨0, 1, some posS, [], none, [(batteryS, prodL)]⟩,
   ⟨1, 1, some capPosS, [], none, [(batteryS, prodL)]⟩,
   ⟨2, 1, none, [], none, [(batteryS, prodL)]⟩]

/-- One US review whose sentiment is the capitalized `Negative`. -/
def upperNegGeoDb : List ReviewRow := [⟨0, 1, some capNegS, [], some usS, []⟩]

/-! ### Helper lemmas -/

theorem mem_groupBy {α K : Type} [DecidableEq K] {key : α → K} {rows : List α}
    {g : K × List α} (h : g ∈ groupBy key rows) :
    g.1 ∈ rows.map key ∧ g.2 = rows.filter (fun r => decide (key r = g.1)) := by
  unfold groupBy at h
  rcases List.mem_map.1 h with ⟨k, hk, rfl⟩
  exact ⟨List.mem_dedup.1 hk, rfl⟩

theorem groupBy_mem_intro {α K : Type} [DecidableEq K] {key : α → K} {rows : List α}
    {k : K} (hk : k ∈ rows.map key) :
    (k, rows.filter (fun r => decide (key r = k))) ∈ groupBy key rows :=
  List.mem_map_of_mem _ (List.mem_dedup.2 hk)

theorem safeDivide_den_pos {n : Int} {d : Nat} {p : Frac}
    (h : safeDivide n d = some p) : 0 < p.2 := by
  unfold safeDivide at h
  split at h
  · exact absurd h (by simp)
  · cases h
    omega

theorem fracGeB_total (p q : Frac) : fracGeB p q = true ∨ fracGeB q p = true := by
  unfold fracGeB
  rcases Nat.eq_zero_or_pos p.2 with hp | hp
  · right
    simp [hp]
  rcases Nat.eq_zero_or_pos q.2 with hq | hq
  · left
    simp [hq]
  rcases le_total (q.1 * (p.2 : Int)) (p.1 * (q.2 : Int)) with h | h
  · left
    simp [Nat.pos_iff_ne_zero.1 hq, Nat.pos_iff_ne_zero.1 hp, h]
  · right
    simp [Nat.pos_iff_ne_zero.1 hq, Nat.pos_iff_ne_zero.1 hp, h]

theorem fracGeB_trans {p q r : Frac} (h1 : fracGeB p q = true)
    (h2 : fracGeB q r = true) : fracGeB p r = true := by
  unfold fracGeB at h1 h2 ⊢
  rcases Nat.eq_zero_or_pos r.2 with hr | hr
  · simp [hr]
  have hrne := Nat.pos_iff_ne_zero.1 hr
  simp only [hrne, if_false] at h2
  rcases Nat.eq_zero_or_pos q.2 with hq | hq
  · simp [hq, if_true] at h2
  have hqne := Nat.pos_iff_ne_zero.1 hq
  simp only [hqne, if_false] at h1 h2
  rcases Nat.eq_zero_or_pos p.2 with hp | hp
  · simp [hp] at h1
  have hpne := Nat.pos_iff_ne_zero.1 hp
  simp only [hpne, hrne, if_false, decide_eq_true_eq] at h1 h2 ⊢
  have hp2 : (0 : Int) < (p.2 : Int) := by exact_mod_cast hp
  have hq2 : (0 : Int) < (q.2 : Int) := by exact_mod_cast hq
  have hr2 : (0 : Int) < (r.2 : Int) := by exact_mod_cast hr
  have key : r.1 * (p.2 : Int) * (q.2 : Int) ≤ p.1 * (r.2 : Int) * (q.2 : Int) := by
    nlinarith
  exact le_of_mul_le_mul_right key hq2

theorem optGeB_total (a b : Option Frac) : optGeB a b = true ∨ optGeB b a = true := by
  cases a with
  | none =>
    cases b with
    | none => left; rfl
    | some q => right; rfl
  | some p =>
    cases b with
    | none => left; rfl
    | some q => exact fracGeB_total p q

theorem optGeB_trans {a b c : Option Frac} (h1 : optGeB a b = true)
    (h2 : optGeB b c = true) : optGeB a c = true := by
  cases c with
  | none => cases a <;> rfl
  | some r =>
    cases b with
    | none => simp [optGeB] at h2
    | some q =>
      cases a with
      | none => simp [optGeB] at h1
      | some p => exact fracGeB_trans h1 h2

theorem safeDivide_wf (n : Int) (d : Nat) : RateWF (safeDivide n d) :=
  fun _ h => safeDivide_den_pos h

theorem optGeB_rank {a b : Option Frac} (ha : RateWF a) (hb : RateWF b)
    (h : optGeB a b = true) : rateRank b ≤ rateRank a := by
  cases b with
  | none => exact bot_le
  | some q =>
    cases a with
    | none => exact absurd h (by simp [optGeB])
    | some p =>
      have hp := ha p rfl
      have hq := hb q rfl
      unfold optGeB fracGeB at h
      simp only [Nat.pos_iff_ne_zero.1 hq, Nat.pos_iff_ne_zero.1 hp, if_false,
        decide_eq_true_eq] at h
      have hp2 : (0 : ℚ) < (p.2 : ℚ) := by exact_mod_cast hp
      have hq2 : (0 : ℚ) < (q.2 : ℚ) := by exact_mod_cast hq
      have hval : fracVal q ≤ fracVal p := by
        unfold fracVal
        rw [div_le_div_iff₀ hq2 hp2]
        exact_mod_cast h
      simp only [rateRank]
      exact_mod_cast hval

/-! ### Claim theorems -/

/-- Claim C1, counterexample: a topic present only in the recent
partition with `vol_recent = 1` gets `growth_rate = 1`, not
`(1 - 1)/1 = 0` as the claim states, because the numerator uses
`COALESCE(p.vol_past, 0)` while only the denominator defaults to `1`. -/
theorem trend_recent_only_growth_counterexample :
    (trendJoin 0 newTopicDb).map (·.growth_rate) = [some ((1 : Int), 1)]
    ∧ rateVal (some ((1 : Int), 1)) = some (1 : ℚ)
    ∧ some (1 : ℚ) ≠ some ((1 : ℚ) - 1) := by
  refine ⟨by decide, by norm_num [rateVal, fracVal], by norm_num⟩

/-- Claim C1, amended: for every topic present in the recent partition
with volume `N` and absent from the past partition, the trends join
contains its row with displayed `vol_past = 1` and
`growth_rate = (N - 0)/1 = N` — finite (non-null) and without error, but
equal to `N`, not `N - 1`. -/
theorem trend_recent_only_topic_growth (c : Int) (db : List ReviewRow) (t : Str)
    (hrec : 0 < topicRecentVol c db t) (hpast : topicPastVol c db t = 0) :
    (⟨t, cleanTopic t, topicRecentVol c db t, 1,
      some ((topicRecentVol c db t : Int), 1)⟩ : TrendRow) ∈ trendJoin c db := by
  obtain ⟨r, hrmem⟩ := List.exists_mem_of_length_pos hrec
  rcases List.mem_filter.1 hrmem with ⟨hrrec, hrt⟩
  have hrt2 : r.predicted_topic = t := of_decide_eq_true hrt
  have hk : t ∈ (recentRows c db).map (·.predicted_topic) :=
    hrt2 ▸ List.mem_map_of_mem _ hrrec
  have hgrp := @groupBy_mem_intro ReviewRow Str _ (fun r : ReviewRow => r.predicted_topic)
    (recentRows c db) t hk
  have hstat : (t, topicRecentVol c db t) ∈ recent_stats c db := by
    unfold recent_stats topicRecentVol
    exact List.mem_map_of_mem _ hgrp
  have hfind : (past_stats c db).find? (fun q => decide (q.1 = t)) = none := by
    apply List.find?_eq_none.2
    intro q hq
    unfold past_stats at hq
    rcases List.mem_map.1 hq with ⟨g, hg, rfl⟩
    simp only [decide_eq_true_eq]
    intro hq1
    have h1 := (mem_groupBy hg).1
    rw [hq1] at h1
    rcases List.mem_map.1 h1 with ⟨r2, hr2, hr2t⟩
    have hmem2 : r2 ∈ (pastRows c db).filter (fun r => decide (r.predicted_topic = t)) :=
      List.mem_filter.2 ⟨hr2, decide_eq_true hr2t⟩
    have hl := List.length_pos_of_mem hmem2
    unfold topicPastVol at hpast
    omega
  unfold trendJoin
  apply List.mem_map.2
  refine ⟨(t, topicRecentVol c db t), hstat, ?_⟩
  simp [hfind, trendRate, safeDivide]

/-- Claim C1, witness: the amended theorem applied to the one-review
database `newTopicDb` with topic `A`. -/
theorem trend_recent_only_topic_growth_witness :
    0 < topicRecentVol 0 newTopicDb ['A'] ∧ topicPastVol 0 newTopicDb ['A'] = 0 ∧
      (⟨['A'], cleanTopic ['A'], topicRecentVol 0 newTopicDb ['A'], 1,
        some ((topicRecentVol 0 newTopicDb ['A'] : Int), 1)⟩ : TrendRow) ∈
          trendJoin 0 newTopicDb :=
  ⟨by decide, by decide,
   trend_recent_only_topic_growth 0 newTopicDb ['A'] (by decide) (by decide)⟩

/-- Claim C2, counterexample: the non-alphabetic 2-character location
code `12` is retained by the geo query (the alphabetic regex filter is
commented out) and shows up as a region with a 0% negative rate. -/
theorem geo_nonalpha_location_counterexample :
    geo_query badLocDb = [⟨some ['1', '2'], 1, some (0, 1)⟩]
    ∧ rateVal (some ((0 : Int), 1)) = some (0 : ℚ) := by
  constructor
  · decide
  · norm_num [rateVal, fracVal]

/-- Claim C2, amended: every row group of the geo query has a present
location of length exactly 2 — rows with a missing location or a
location of any other length are excluded — but non-alphabetic
2-character codes are retained (see the counterexample). -/
theorem geo_locations_wellformed (db : List ReviewRow) (row : GeoRow)
    (h : row ∈ geo_query db) : ∃ l : Str, row.location = some l ∧ l.length = 2 := by
  simp only [geo_query, List.mem_insertionSort] at h
  rcases List.mem_filter.1 h with ⟨h2, -⟩
  rcases List.mem_map.1 h2 with ⟨g, hg, rfl⟩
  have h1 := (mem_groupBy hg).1
  rcases List.mem_map.1 h1 with ⟨r, hr, hrl⟩
  rcases List.mem_filter.1 hr with ⟨-, hkeep⟩
  unfold geoKeep at hkeep
  cases hloc : r.location with
  | none => rw [hloc] at hkeep; simp at hkeep
  | some l =>
    rw [hloc] at hkeep
    refine ⟨l, ?_, by simpa using hkeep⟩
    show g.1 = some l
    rw [← hrl]
    show r.location = some l
    exact hloc

/-- Claim C2, witness: the amended theorem applied to the output row of
`badLocDb`. -/
theorem geo_locations_wellformed_witness :
    ∃ l : Str, (⟨some ['1', '2'], 1, some ((0 : Int), 1)⟩ : GeoRow).location = some l ∧
      l.length = 2 :=
  geo_locations_wellformed badLocDb ⟨some ['1', '2'], 1, some ((0 : Int), 1)⟩ (by decide)

/-- Claim C3, counterexample: with `start_date > end_date` the root-cause
page does signal the validation error, but the preliminary bounds query
has already executed during that render, so it is not true that no query
at all is issued. -/
theorem root_cause_bounds_query_counterexample :
    (page_root_cause 0 [] 5 3).validation_error = true ∧
      (page_root_cause 0 [] 5 3).bounds_executed = true := by decide

/-- Claim C3, amended: for every pair of dates with
`start_date > end_date` the root-cause page signals a validation error
and executes neither the time-series query nor the topics query,
fetching no rows, producing no headline and drawing no chart — but the
preliminary bounds query that seeds the date pickers has already run. -/
theorem root_cause_invalid_range_skips_queries (ep : Int) (db : List ReviewRow)
    (s e : Int) (h : e < s) :
    page_root_cause ep db s e = ⟨true, true, false, false, [], [], none, 0⟩ := by
  unfold page_root_cause
  simp [h]

/-- Claim C3, witness: the amended theorem at dates 7 and 2. -/
theorem root_cause_invalid_range_witness :
    page_root_cause 0 [] 7 2 = ⟨true, true, false, false, [], [], none, 0⟩ :=
  root_cause_invalid_range_skips_queries 0 [] 7 2 (by decide)

/-- Claim C4: every computed ratio of the five query builders
(`negative_rate`, geo `negative_pct`, features `positive_pct`, trends
`growth_rate`, competition `negative_association_pct`) is null — not
zero, not an error — whenever its denominator count is zero. -/
theorem rates_null_on_zero_denominator :
    (∀ g : List ReviewRow, g.length = 0 → tsRate g = none)
    ∧ (∀ g : List ReviewRow, geoDenom g = 0 → geoPct g = none)
    ∧ (∀ g : List Mention, g.length = 0 → featPct g = none)
    ∧ (∀ (vr : Nat) (p : Option Nat), p.getD 1 = 0 → trendRate vr p = none)
    ∧ (∀ g : List Mention, g.length = 0 → compPct g = none) := by
  refine ⟨?_, ?_, ?_, ?_, ?_⟩
  · intro g h
    simp [tsRate, safeDivide, h]
  · intro g h
    simp [geoPct, safeDivide, h]
  · intro g h
    simp [featPct, safeDivide, h]
  · intro vr p h
    simp [trendRate, safeDivide, h]
  · intro g h
    simp [compPct, safeDivide, h]

/-- Claim C4, witness: the five rate builders evaluated at concrete
zero-denominator groups, in particular a geo group whose only review has
a null sentiment. -/
theorem rates_null_witness :
    tsRate [] = none ∧ geoPct [nullSentRow] = none ∧ featPct [] = none
    ∧ trendRate 5 (some 0) = none ∧ compPct [] = none :=
  ⟨rates_null_on_zero_denominator.1 [] rfl,
   rates_null_on_zero_denominator.2.1 [nullSentRow] (by decide),
   rates_null_on_zero_denominator.2.2.1 [] rfl,
   rates_null_on_zero_denominator.2.2.2.1 5 (some 0) rfl,
   rates_null_on_zero_denominator.2.2.2.2 [] rfl⟩

/-- Claim C5: the geo query keeps only groups with `total_reviews > 0`,
orders its output by `negative_pct` descending (nulls last), on the
spec's example (US, US, FR with negative, positive, negative) yields FR
with rate 1 before US with rate 1/2, and divides by the count of
non-null sentiments rather than by `total_reviews` (US group with one
negative and one null sentiment: total 2, rate 1). -/
theorem geo_query_spec :
    (∀ (db : List ReviewRow) (row : GeoRow), row ∈ geo_query db → 0 < row.total_reviews)
    ∧ (∀ db : List ReviewRow,
        (geo_query db).Pairwise (fun a b => rateRank b.negative_pct ≤ rateRank a.negative_pct))
    ∧ (geo_query exampleGeoDb).map (fun r => (r.location, r.total_reviews, rateVal r.negative_pct)) =
        [(some frS, 1, some (1 : ℚ)), (some usS, 2, some (1/2 : ℚ))]
    ∧ (geo_query nullMixGeoDb).map (fun r => (r.location, r.total_reviews, rateVal r.negative_pct)) =
        [(some usS, 2, some (1 : ℚ))] := by
  refine ⟨?_, ?_, ?_, ?_⟩
  · intro db row h
    simp only [geo_query, List.mem_insertionSort] at h
    rcases List.mem_filter.1 h with ⟨-, hpos⟩
    exact of_decide_eq_true hpos
  · intro db
    have hwf : ∀ row ∈ geo_query db, RateWF row.negative_pct := by
      intro row hrow
      simp only [geo_query, List.mem_insertionSort] at hrow
      rcases List.mem_filter.1 hrow with ⟨h2, -⟩
      rcases List.mem_map.1 h2 with ⟨g, hg, rfl⟩
      exact safeDivide_wf _ _
    have hsorted : List.Sorted geoGe (geo_query db) := by
      haveI : IsTotal GeoRow geoGe := ⟨fun a b => optGeB_total a.negative_pct b.negative_pct⟩
      haveI : IsTrans GeoRow geoGe := ⟨fun _ _ _ h1 h2 => optGeB_trans h1 h2⟩
      unfold geo_query
      exact List.sorted_insertionSort geoGe _
    exact List.Pairwise.imp_of_mem
      (fun ha hb hr => optGeB_rank (hwf _ ha) (hwf _ hb) hr) hsorted
  · have h : geo_query exampleGeoDb =
        [⟨some frS, 1, some (1, 1)⟩, ⟨some usS, 2, some (1, 2)⟩] := by decide
    rw [h]
    norm_num [rateVal, fracVal]
  · have h : geo_query nullMixGeoDb = [⟨some usS, 2, some (1, 1)⟩] := by decide
    rw [h]
    norm_num [rateVal, fracVal]

/-- Claim C5, witness: the total-reviews bound applied to the FR row of
the example database. -/
theorem geo_query_spec_witness :
    0 < (⟨some frS, 1, some ((1 : Int), 1)⟩ : GeoRow).total_reviews :=
  geo_query_spec.1 exampleGeoDb ⟨some frS, 1, some ((1 : Int), 1)⟩ (by decide)

/-- Claim C6: for valid date ranges every row of the time-series query
has its date inside the closed interval, and on the spec's example rows
(dates 1, 1, 2 with negative, positive, negative over the range [1, 2])
the query yields (1, volume 2, rate 1/2) then (2, volume 1, rate 1). -/
theorem ts_query_spec :
    (∀ (s e : Int) (db : List ReviewRow) (row : TsRow), s ≤ e → row ∈ ts_query s e db →
        s ≤ row.date ∧ row.date ≤ e)
    ∧ (ts_query 1 2 exampleTsDb).map (fun r => (r.date, r.volume, rateVal r.negative_rate)) =
        [(1, 2, some (1/2 : ℚ)), (2, 1, some 1)] := by
  constructor
  · intro s e db row hse hrow
    simp only [ts_query, List.mem_insertionSort] at hrow
    rcases List.mem_map.1 hrow with ⟨g, hg, rfl⟩
    have h1 := (mem_groupBy hg).1
    rcases List.mem_map.1 h1 with ⟨r, hr, hrd⟩
    rcases List.mem_filter.1 hr with ⟨-, hcond⟩
    have hb := of_decide_eq_true hcond
    exact ⟨hrd ▸ hb.1, hrd ▸ hb.2⟩
  · have h : ts_query 1 2 exampleTsDb = [⟨1, 2, some (1, 2)⟩, ⟨2, 1, some (1, 1)⟩] := by decide
    rw [h]
    norm_num [rateVal, fracVal]

/-- Claim C6, witness: the range bound applied to the first example row. -/
theorem ts_query_spec_witness :
    (1 : Int) ≤ (⟨1, 2, some ((1 : Int), 2)⟩ : TsRow).date ∧
      (⟨1, 2, some ((1 : Int), 2)⟩ : TsRow).date ≤ 2 :=
  ts_query_spec.1 1 2 exampleTsDb ⟨1, 2, some ((1 : Int), 2)⟩ (by decide) (by decide)

/-- Claim C7: an empty result is a defined no-data state on every one of
the five pages: the headline (top trend, worst location, top issue) is
`none` and, where the page has one, the no-data warning is shown with no
chart drawn (the features page, which has no warning, draws nothing);
a non-empty result gives the headline of the first shaped row.  All
controllers are total functions, so no path raises. -/
theorem empty_result_no_headline :
    (∀ (c : Int) (db : List ReviewRow), trend_query c db = [] →
        (page_emerging_trends c db).top_trend = none ∧
          (page_emerging_trends c db).no_data_warning = true)
    ∧ (∀ (c : Int) (db : List ReviewRow) (r : TrendRow) (rest : List TrendRow),
        trend_query c db = r :: rest →
          (page_emerging_trends c db).top_trend = some r.simple_topic)
    ∧ (∀ db : List ReviewRow, geo_query db = [] →
        (page_geo_hotspots db).worst_loc = none ∧
          (page_geo_hotspots db).no_data_warning = true)
    ∧ (∀ (db : List ReviewRow) (r : GeoRow) (rest : List GeoRow),
        geo_query db = r :: rest → (page_geo_hotspots db).worst_loc = some r.location)
    ∧ (∀ (ep : Int) (db : List ReviewRow) (s e : Int), s ≤ e → ts_query s e db = [] →
        (page_root_cause ep db s e).top_issue = none ∧
          (page_root_cause ep db s e).charts_shown = 0)
    ∧ (∀ (ep : Int) (db : List ReviewRow) (s e : Int), s ≤ e → topic_query s e db = [] →
        (page_root_cause ep db s e).top_issue = none)
    ∧ (∀ (ep : Int) (db : List ReviewRow) (s e : Int) (r : TopicRow) (rest : List TopicRow),
        s ≤ e → ts_query s e db ≠ [] → topic_query s e db = r :: rest →
          (page_root_cause ep db s e).top_issue = some r.simple_topic)
    ∧ (∀ db : List ReviewRow, feature_query db = [] →
        (page_product_features db).displayed = false ∧
          (page_product_features db).top_3 = [] ∧
          (page_product_features db).bottom_3 = [])
    ∧ (∀ db : List ReviewRow, comp_query db = [] →
        (page_competition db).no_data_warning = true ∧
          (page_competition db).charts_shown = 0 ∧ (page_competition db).rows = [])
    ∧ (∀ (db : List ReviewRow) (r : CompRow) (rest : List CompRow),
        comp_query db = r :: rest →
          (page_competition db).no_data_warning = false ∧
            (page_competition db).rows = r :: rest) := by
  refine ⟨?_, ?_, ?_, ?_, ?_, ?_, ?_, ?_, ?_, ?_⟩
  · intro c db h
    simp [page_emerging_trends, h]
  · intro c db r rest h
    simp [page_emerging_trends, h]
  · intro db h
    simp [page_geo_hotspots, h]
  · intro db r rest h
    simp [page_geo_hotspots, h]
  · intro ep db s e hse h
    simp [page_root_cause, not_lt.2 hse, h]
  · intro ep db s e hse h
    unfold page_root_cause
    simp only [not_lt.2 hse, if_false]
    split
    · rfl
    · simp [h]
  · intro ep db s e r rest hse hts h
    unfold page_root_cause
    simp only [not_lt.2 hse, if_false]
    rw [if_neg (by simpa [List.isEmpty_iff] using hts)]
    simp [h]
  · intro db h
    simp [page_product_features, h]
  · intro db h
    simp [page_competition, h]
  · intro db r rest h
    simp [page_competition, h]

/-- Claim C7, witness: the empty database on each of the five pages. -/
theorem empty_result_no_headline_witness :
    (page_emerging_trends 0 []).top_trend = none ∧
      (page_geo_hotspots []).worst_loc = none ∧
      (page_root_cause 0 [] 0 0).top_issue = none ∧
      (page_product_features []).displayed = false ∧
      (page_competition []).no_data_warning = true :=
  ⟨(empty_result_no_headline.1 0 [] (by decide)).1,
   (empty_result_no_headline.2.2.1 [] (by decide)).1,
   (empty_result_no_headline.2.2.2.2.1 0 [] 0 0 (by decide) (by decide)).1,
   (empty_result_no_headline.2.2.2.2.2.2.2.1 [] (by decide)).1,
   (empty_result_no_headline.2.2.2.2.2.2.2.2.1 [] (by decide)).1⟩

/-- Claim C8: with at least 6 fetched features, the top-3 slice, the
middle, and the tail-3 slice concatenate back to the descending-sorted
table exactly (so top 3 and bottom 3 never overlap and each row is used
once); the sorted table is a permutation of the fetched one, the
displayed bottom 3 is a permutation (ascending re-sort) of the tail
slice, and both slices have exactly 3 rows. -/
theorem feature_slices_partition (db : List ReviewRow)
    (h : 6 ≤ (feature_query db).length) :
    featTop3 db ++ (((featSorted db).drop 3).take ((featSorted db).length - 6))
        ++ featTailSlice db = featSorted db
    ∧ List.Perm (featSorted db) (feature_query db)
    ∧ List.Perm (featBottom3 db) (featTailSlice db)
    ∧ (featTop3 db).length = 3 ∧ (featTailSlice db).length = 3 := by
  have hperm : List.Perm (featSorted db) (feature_query db) := by
    unfold featSorted
    exact List.perm_insertionSort _ _
  have hlen : (featSorted db).length = (feature_query db).length := hperm.length_eq
  have h6 : 6 ≤ (featSorted db).length := by omega
  refine ⟨?_, hperm, ?_, ?_, ?_⟩
  · have e2 : (((featSorted db).drop 3).take ((featSorted db).length - 6)) ++
        (((featSorted db).drop 3).drop ((featSorted db).length - 6)) = (featSorted db).drop 3 :=
      List.take_append_drop _ _
    have e3 : ((featSorted db).drop 3).drop ((featSorted db).length - 6) =
        (featSorted db).drop ((featSorted db).length - 3) := by
      rw [List.drop_drop]
      congr 1
      omega
    unfold featTailSlice featTop3
    rw [← e3, List.append_assoc, e2]
    exact List.take_append_drop 3 _
  · unfold featBottom3
    exact List.perm_insertionSort _ _
  · unfold featTop3
    rw [List.length_take]
    omega
  · unfold featTailSlice
    rw [List.length_drop]
    omega

/-- Claim C8, witness: the slice lengths on a six-feature database. -/
theorem feature_slices_partition_witness :
    (featTop3 sixFeatDb).length = 3 ∧ (featTailSlice sixFeatDb).length = 3 :=
  ⟨(feature_slices_partition sixFeatDb (by decide)).2.2.2.1,
   (feature_slices_partition sixFeatDb (by decide)).2.2.2.2⟩

/-- Claim C9, counterexample: `REPLACE(.., 'Topic: ', '')` removes every
occurrence, not just a leading one, and removal can splice a new
occurrence: on `TopTopic: ic: X` one pass yields `Topic: X` and a second
pass yields `X`, so cleaning an already-cleaned label changes it. -/
theorem cleanTopic_not_idempotent_counterexample :
    cleanTopic (cleanTopic ['T','o','p','T','o','p','i','c',':',' ','i','c',':',' ','X']) ≠
      cleanTopic ['T','o','p','T','o','p','i','c',':',' ','i','c',':',' ','X'] := by decide

/-- Claim C9, amended: the cleaning operation leaves unchanged every
label in which `"Topic: "` does not occur at all; it is therefore
idempotent exactly on those labels whose once-cleaned form has no
remaining occurrence, but not on all strings (see the counterexample). -/
theorem cleanTopic_fixed_of_no_occurrence (s : Str) (h : hasTopicTag s = false) :
    cleanTopic s = s := by
  induction s using cleanTopic.induct with
  | case1 rest ih =>
    exfalso
    simp [hasTopicTag, topicTag, isPre] at h
  | case2 c cs h1 ih =>
    rw [hasTopicTag] at h
    rcases Bool.or_eq_false_iff.1 h with ⟨hpre, htail⟩
    have hstep : cleanTopic (c :: cs) = c :: cleanTopic cs := by
      rw [cleanTopic.eq_def]
      split
      · rename_i x rest heq
        rw [heq] at hpre
        simp [isPre, topicTag] at hpre
      · rename_i x c2 cs2 hno heq
        cases heq
        rfl
      · rename_i x heq
        exact absurd heq (List.cons_ne_nil _ _)
    rw [hstep, ih htail]
  | case3 => rfl

/-- Claim C9, witness: a tag-free label is left unchanged. -/
theorem cleanTopic_fixed_witness :
    cleanTopic ['B', 'a', 't', 't', 'e', 'r', 'y'] = ['B', 'a', 't', 't', 'e', 'r', 'y'] :=
  cleanTopic_fixed_of_no_occurrence ['B', 'a', 't', 't', 'e', 'r', 'y'] (by decide)

/-- Claim C10: the features rate is case-sensitive with an unguarded
membership denominator: three `battery` mentions with sentiments
`positive`, `Positive` and null give `positive_pct = 1/3` (all three in
the denominator, only the exact lowercase one in the numerator); the
numerator predicate rejects `Positive` and null outright, whereas the
lower-casing test used by the root-cause and geo queries accepts
`Negative`, as the geo query on a single capitalized-`Negative` review
shows by yielding rate 1. -/
theorem feature_pct_case_sensitive :
    (feature_query mixedCaseFeatDb).map (fun r => (r.feature, r.mentions, rateVal r.positive_pct)) =
        [(batteryS, 3, some (1/3 : ℚ))]
    ∧ (geo_query upperNegGeoDb).map (fun r => (r.location, r.total_reviews, rateVal r.negative_pct)) =
        [(some usS, 1, some (1 : ℚ))]
    ∧ (∀ t : Str, (((t, some capPosS) : Mention).2
          == some ['p', 'o', 's', 'i', 't', 'i', 'v', 'e']) = false)
    ∧ (∀ t : Str, (((t, (none : Option Str)) : Mention).2
          == some ['p', 'o', 's', 'i', 't', 'i', 'v', 'e']) = false)
    ∧ isNegLower (some capNegS) = true := by
  refine ⟨?_, ?_, fun t => rfl, fun t => rfl, by decide⟩
  · have h : feature_query mixedCaseFeatDb = [⟨batteryS, 3, some (1, 3)⟩] := by decide
    rw [h]
    norm_num [rateVal, fracVal]
  · have h : geo_query upperNegGeoDb = [⟨some usS, 1, some (1, 1)⟩] := by decide
    rw [h]
    norm_num [rateVal, fracVal]
